import Mathlib

/-!
go_blog: the post resource handlers of `main.go`.

A shallow embedding of the five gin handlers of `main.go` (`getPosts`, `getPost`,
`createPost`, `updatePost`, `deletePost`) over an explicit world: the `posts`
collection, the number of clock readings taken so far, and the log of the calls the
handlers issue to the collection.

What `main.go` imports and does not define is modelled next to the handlers and kept
apart from them:

* `primitive.ObjectID`, `ObjectIDFromHex`, `Hex`, `IsZero` (package `bson/primitive`);
* the `posts` collection (`Find`, `FindOne`, `InsertOne`, `FindOneAndUpdate`,
  `DeleteOne` of package `mongo`), as a list of documents in insertion order with
  unique `_id`; a `time.Time` is marshalled to a BSON date, which counts milliseconds,
  so a stored timestamp is the written one without what is below the millisecond;
* `time.Now()`, as successive readings `clock 0, clock 1, ...` of a clock function,
  in nanoseconds;
* `c.BindJSON`, by its result: the decoded `Post` or the decoding error;
* `c.JSON`, by the status code and the JSON value written.

A failure of the store round trip (connectivity, timeout, internal error) is an input
of every handler: `Env.fault`.
-/

namespace GoBlog

/-! ## Identifiers -/

/-- The type `primitive.ObjectID`, a `[12]byte` array. -/
structure ObjectID where
  bytes : List (Fin 256)
  size_eq : bytes.length = 12

instance : DecidableEq ObjectID := fun a b =>
  if h : a.bytes = b.bytes then
    isTrue (by cases a; cases b; cases h; rfl)
  else
    isFalse (fun e => h (by rw [e]))

/-- The value `primitive.NilObjectID`: twelve zero bytes. -/
def NilObjectID : ObjectID := ⟨List.replicate 12 0, by decide⟩

/-- The method `ObjectID.IsZero`: equality with `NilObjectID`. -/
def ObjectID.IsZero (id : ObjectID) : Bool := decide (id = NilObjectID)

/-- The table `hextable = "0123456789abcdef"` of `encoding/hex`. -/
def hextable : List Char :=
  ['0', '1', '2', '3', '4', '5', '6', '7', '8', '9', 'a', 'b', 'c', 'd', 'e', 'f']

/-- One entry of `hextable`. -/
def hexDigit (n : Nat) : Char := hextable.getD n '0'

/-- The function `hex.Encode`: two digits per byte, high nibble first. -/
def hexEncode : List (Fin 256) → List Char
  | [] => []
  | b :: bs => hexDigit (b.val / 16) :: hexDigit (b.val % 16) :: hexEncode bs

/-- The method `ObjectID.Hex`: the 24-character lower-case rendering, which is also
the `id` a client reads in a JSON response. -/
def ObjectID.Hex (id : ObjectID) : String := String.mk (hexEncode id.bytes)

/-- The table `reverseHexTable` of `encoding/hex`: the value of a hexadecimal digit of
either case, `none` for every other character. -/
def fromHexChar (c : Char) : Option (Fin 16) :=
  let n := c.toNat
  if h : 48 ≤ n ∧ n ≤ 57 then some ⟨n - 48, by omega⟩
  else if h : 97 ≤ n ∧ n ≤ 102 then some ⟨n - 87, by omega⟩
  else if h : 65 ≤ n ∧ n ≤ 70 then some ⟨n - 55, by omega⟩
  else none

/-- The function `hex.Decode`: one byte per pair of digits; an invalid digit or a
dangling last digit is an error. -/
def hexDecode : List Char → Option (List (Fin 256))
  | [] => some []
  | [_] => none
  | p :: q :: rest =>
    match fromHexChar p, fromHexChar q with
    | some a, some b =>
      match hexDecode rest with
      | some bs => some (⟨a.val * 16 + b.val, by omega⟩ :: bs)
      | none => none
    | _, _ => none

/-- The function `primitive.ObjectIDFromHex`: `len(s) != 24` (a length in bytes) is
`ErrInvalidHex`, then `hex.Decode` into the twelve bytes. `none` stands for a non-nil
`err`; the handlers never look at which error it is. The digits are read character by
character: a character outside ASCII takes several bytes, none of which is a digit, so
it is an error here as it is byte by byte. -/
def ObjectIDFromHex (s : String) : Option ObjectID :=
  if s.utf8ByteSize ≠ 24 then none
  else
    match hexDecode s.data with
    | some bs => if h : bs.length = 12 then some ⟨bs, h⟩ else none
    | none => none

/-- A character is a hexadecimal digit (of either case). -/
def IsHexChar (c : Char) : Prop :=
  (48 ≤ c.toNat ∧ c.toNat ≤ 57) ∨ (97 ≤ c.toNat ∧ c.toNat ≤ 102) ∨ (65 ≤ c.toNat ∧ c.toNat ≤ 70)

instance (c : Char) : Decidable (IsHexChar c) := by
  unfold IsHexChar; exact inferInstance

/-- A path parameter is a well-formed identifier: exactly 24 hexadecimal characters. -/
def ValidHexId (s : String) : Prop := s.length = 24 ∧ ∀ c ∈ s.data, IsHexChar c

instance (s : String) : Decidable (ValidHexId s) := by
  unfold ValidHexId; exact inferInstance

/-! ## Data model -/

/-- Instants of `time.Time`, in nanoseconds; `0` is the zero value `time.Time{}`. -/
abbrev Time := Nat

/-- The instant a BSON date keeps of a `time.Time`: a BSON date counts milliseconds, so
marshalling drops what is below the millisecond. -/
def bsonDate (t : Time) : Time := t / 1000000 * 1000000

/-- The struct `Post` of `main.go`. -/
structure Post where
  ID : ObjectID
  Title : String
  Content : String
  CreatedAt : Time
  UpdatedAt : Time
deriving DecidableEq

/-- A value stored under a key of a `bson.M`. -/
inductive Value
  | str (s : String)
  | time (t : Time)
  | oid (o : ObjectID)
deriving DecidableEq

/-- The type `bson.M`, as the list of its entries. -/
abbrev M := List (String × Value)

/-- A value as the driver marshals it to BSON: a `time.Time` becomes a BSON date. -/
def marshalValue : Value → Value
  | Value.time t => Value.time (bsonDate t)
  | Value.str s => Value.str s
  | Value.oid o => Value.oid o

/-- A `bson.M` as the driver marshals it to BSON. -/
def marshalM (m : M) : M := m.map (fun kv => (kv.1, marshalValue kv.2))

/-- A `Post` as the driver marshals it to BSON: `created_at` and `updated_at` become BSON
dates. -/
def marshalPost (post : Post) : Post :=
  { post with CreatedAt := bsonDate post.CreatedAt, UpdatedAt := bsonDate post.UpdatedAt }

/-- The JSON value a handler writes with `c.JSON`. -/
inductive Body
  | null
  | error (msg : String)
  | message (msg : String)
  | post (p : Post)
  | posts (ps : List Post)
deriving DecidableEq

/-- The status code and JSON body of a response. -/
structure Response where
  status : Nat
  body : Body
deriving DecidableEq

/-- How `c.JSON` renders a `[]Post`: a nil slice is encoded as `null`, every other slice
as an array. `none` is the nil slice. -/
def jsonOfSlice : Option (List Post) → Body
  | none => Body.null
  | some ps => Body.posts ps

/-! ## The `posts` collection -/

/-- The `posts` collection: its documents in insertion order. The store keeps `_id`
unique (the index every MongoDB collection has on `_id`). -/
structure Store where
  docs : List Post
  nodup : (docs.map Post.ID).Nodup

instance : DecidableEq Store := fun a b =>
  if h : a.docs = b.docs then
    isTrue (by cases a; cases b; cases h; rfl)
  else
    isFalse (fun e => h (by rw [e]))

/-- The collection without documents. -/
def Store.empty : Store := ⟨[], List.nodup_nil⟩

/-- The value a document holds under a field name of the collection. -/
def fieldOf (d : Post) (key : String) : Option Value :=
  if key = "_id" then some (Value.oid d.ID)
  else if key = "title" then some (Value.str d.Title)
  else if key = "content" then some (Value.str d.Content)
  else if key = "created_at" then some (Value.time d.CreatedAt)
  else if key = "updated_at" then some (Value.time d.UpdatedAt)
  else none

/-- A document matches a filter when it holds the filter's value under each of the
filter's keys; the empty filter `bson.M{}` matches every document. -/
def matchesFilter (filter : M) (d : Post) : Bool :=
  filter.all (fun kv => decide (fieldOf d kv.1 = some kv.2))

/-- The effect of one entry of a `$set` document. `_id` is immutable in the store and
a key that is not a field of the collection's documents is not kept by `Post`. -/
def setField (d : Post) (kv : String × Value) : Post :=
  match kv.2 with
  | Value.str s =>
    if kv.1 = "title" then { d with Title := s }
    else if kv.1 = "content" then { d with Content := s }
    else d
  | Value.time t =>
    if kv.1 = "created_at" then { d with CreatedAt := t }
    else if kv.1 = "updated_at" then { d with UpdatedAt := t }
    else d
  | Value.oid _ => d

/-- The effect of `{"$set": set}` on one document. -/
def applySet (set : M) (d : Post) : Post := set.foldl setField d

/-- Apply `f` to the first document that satisfies `p`, if there is one. -/
def updateFirst (p : Post → Bool) (f : Post → Post) : List Post → List Post
  | [] => []
  | d :: ds => if p d then f d :: ds else d :: updateFirst p f ds

/-- The store side of `InsertOne`: a document whose `_id` is already in the collection is
refused with a duplicate-key error, any other document is appended. -/
def Store.insert (s : Store) (doc : Post) : Except String Store :=
  if h : doc.ID ∈ s.docs.map Post.ID then
    Except.error "E11000 duplicate key error collection: blog.posts index: _id_"
  else
    Except.ok ⟨s.docs ++ [doc], by
      rw [List.map_append, List.nodup_append]
      refine ⟨s.nodup, by simp, ?_⟩
      intro a ha hb
      simp only [List.map_cons, List.map_nil, List.mem_singleton] at hb
      exact h (hb ▸ ha)⟩

/-- The store side of `FindOneAndUpdate` with `{"$set": set}`: the first document that
matches the filter gets the fields of `set`; nothing is inserted when none matches. -/
def Store.update (s : Store) (filter set : M) : Store :=
  ⟨updateFirst (matchesFilter filter) (applySet set) s.docs, by
    have hset : ∀ d : Post, (applySet set d).ID = d.ID := by
      intro d
      unfold applySet
      induction set generalizing d with
      | nil => rfl
      | cons kv rest ih =>
        rw [List.foldl_cons, ih]
        unfold setField
        split <;> (try split_ifs) <;> rfl
    have hmap : ∀ l : List Post,
        (updateFirst (matchesFilter filter) (applySet set) l).map Post.ID = l.map Post.ID := by
      intro l
      induction l with
      | nil => rfl
      | cons d ds ih =>
        unfold updateFirst
        split_ifs
        · simp [hset]
        · simp [ih]
    rw [hmap]
    exact s.nodup⟩

/-- The store side of `DeleteOne`: the first document that matches the filter is removed. -/
def Store.delete (s : Store) (filter : M) : Store :=
  ⟨s.docs.eraseP (matchesFilter filter),
    (List.Sublist.map Post.ID (List.eraseP_sublist s.docs)).nodup s.nodup⟩

/-! ## The world of a request -/

/-- A call a handler issues to `postsCollection`, with its arguments. The update of
`findOneAndUpdate` is `{"$set": set}`. -/
inductive StoreCall
  | find (filter : M)
  | findOne (filter : M)
  | insertOne (doc : Post)
  | findOneAndUpdate (filter set : M)
  | deleteOne (filter : M)
deriving DecidableEq

/-- What a handler runs against: the collection, the number of readings of the clock
taken so far, and the calls issued to the collection so far (oldest first). -/
structure World where
  store : Store
  tick : Nat
  calls : List StoreCall
deriving DecidableEq

/-- The world at start-up: an empty collection, no reading taken, no call issued. -/
def World.init : World := ⟨Store.empty, 0, []⟩

/-- What the surroundings decide for one request: whether the round trip to the store
fails and with which error text, whether draining the cursor fails, and the identifier
the driver generates for a document that carries no `_id`. -/
structure Env where
  fault : Option String
  cursorFault : Option String
  fresh : ObjectID

/-- The call `time.Now()`: the next reading of the clock. -/
def now (clock : Nat → Time) (w : World) : Time × World :=
  (clock w.tick, { w with tick := w.tick + 1 })

/-! ## The driver -/

/-- The call `postsCollection.Find(ctx, filter)`: a cursor over the matching documents,
or the error of the round trip. -/
def Find (env : Env) (w : World) (filter : M) : Except String (List Post) × World :=
  let w1 := { w with calls := w.calls ++ [StoreCall.find filter] }
  match env.fault with
  | some e => (Except.error e, w1)
  | none => (Except.ok (w.store.docs.filter (matchesFilter (marshalM filter))), w1)

/-- The call `cursor.All(ctx, &results)`: the slice is overwritten with the decoded
documents. With no document nothing is appended and the slice is re-sliced to length 0,
so a nil slice stays nil. -/
def cursorAll (env : Env) (cursor : List Post) (results : Option (List Post)) :
    Except String (Option (List Post)) :=
  match env.cursorFault with
  | some e => Except.error e
  | none =>
    match cursor with
    | [] => Except.ok (results.map (fun _ => []))
    | d :: ds => Except.ok (some (d :: ds))

/-- The call `postsCollection.FindOne(ctx, filter).Decode(&post)`: the first matching
document, `mongo.ErrNoDocuments` when there is none, or the error of the round trip. -/
def FindOne (env : Env) (w : World) (filter : M) : Except String Post × World :=
  let w1 := { w with calls := w.calls ++ [StoreCall.findOne filter] }
  match env.fault with
  | some e => (Except.error e, w1)
  | none =>
    match w.store.docs.find? (matchesFilter (marshalM filter)) with
    | some d => (Except.ok d, w1)
    | none => (Except.error "mongo: no documents in result", w1)

/-- The call `postsCollection.InsertOne(ctx, post)`. The tag `bson:"_id,omitempty"`
leaves `_id` out of the marshalled document when `post.ID` is zero, and the driver then
generates one; otherwise the document goes to the store under `post.ID`. The timestamps
go to the store as BSON dates. The result is `InsertedID`. -/
def InsertOne (env : Env) (w : World) (post : Post) : Except String ObjectID × World :=
  let w1 := { w with calls := w.calls ++ [StoreCall.insertOne post] }
  match env.fault with
  | some e => (Except.error e, w1)
  | none =>
    let id := if post.ID.IsZero then env.fresh else post.ID
    match w.store.insert (marshalPost { post with ID := id }) with
    | Except.error e => (Except.error e, w1)
    | Except.ok s => (Except.ok id, { w1 with store := s })

/-- The call `postsCollection.FindOneAndUpdate(ctx, filter, {"$set": set},
SetReturnDocument(After))`: the filter and the update go to the store marshalled; the
result holds the document after the update, or `mongo.ErrNoDocuments`, or the error of
the round trip. -/
def FindOneAndUpdate (env : Env) (w : World) (filter set : M) : Except String Post × World :=
  let w1 := { w with calls := w.calls ++ [StoreCall.findOneAndUpdate filter set] }
  match env.fault with
  | some e => (Except.error e, w1)
  | none =>
    match w.store.docs.find? (matchesFilter (marshalM filter)) with
    | some d =>
      (Except.ok (applySet (marshalM set) d),
        { w1 with store := w.store.update (marshalM filter) (marshalM set) })
    | none => (Except.error "mongo: no documents in result", w1)

/-- The call `postsCollection.DeleteOne(ctx, filter)`: the result is `DeletedCount`. -/
def DeleteOne (env : Env) (w : World) (filter : M) : Except String Nat × World :=
  let w1 := { w with calls := w.calls ++ [StoreCall.deleteOne filter] }
  match env.fault with
  | some e => (Except.error e, w1)
  | none =>
    match w.store.docs.find? (matchesFilter (marshalM filter)) with
    | some _ => (Except.ok 1, { w1 with store := w.store.delete (marshalM filter) })
    | none => (Except.ok 0, w1)

/-! ## The handlers of `main.go` -/

/-- The handler `getPosts` (GET /api/posts). -/
def getPosts (env : Env) (w : World) : Response × World :=
  match Find env w [] with
  | (Except.error e, w1) => (⟨500, Body.error e⟩, w1)
  | (Except.ok cursor, w1) =>
    match cursorAll env cursor none with
    | Except.error e => (⟨500, Body.error e⟩, w1)
    | Except.ok posts => (⟨200, jsonOfSlice posts⟩, w1)

/-- The handler `getPost` (GET /api/posts/:id). -/
def getPost (env : Env) (idParam : String) (w : World) : Response × World :=
  match ObjectIDFromHex idParam with
  | none => (⟨400, Body.error "Invalid ID"⟩, w)
  | some id =>
    match FindOne env w [("_id", Value.oid id)] with
    | (Except.error _, w1) => (⟨404, Body.error "Post not found"⟩, w1)
    | (Except.ok post, w1) => (⟨200, Body.post post⟩, w1)

/-- The handler `createPost` (POST /api/posts). `body` is the result of
`c.BindJSON(&post)`. -/
def createPost (clock : Nat → Time) (env : Env) (body : Except String Post) (w : World) :
    Response × World :=
  match body with
  | Except.error e => (⟨400, Body.error e⟩, w)
  | Except.ok post =>
    let r1 := now clock w
    let post1 := { post with CreatedAt := r1.1 }
    let r2 := now clock r1.2
    let post2 := { post1 with UpdatedAt := r2.1 }
    match InsertOne env r2.2 post2 with
    | (Except.error e, w3) => (⟨500, Body.error e⟩, w3)
    | (Except.ok insertedID, w3) => (⟨201, Body.post { post2 with ID := insertedID }⟩, w3)

/-- The handler `updatePost` (PUT /api/posts/:id). `body` is the result of
`c.BindJSON(&post)`. -/
def updatePost (clock : Nat → Time) (env : Env) (idParam : String) (body : Except String Post)
    (w : World) : Response × World :=
  match ObjectIDFromHex idParam with
  | none => (⟨400, Body.error "Invalid ID"⟩, w)
  | some id =>
    match body with
    | Except.error e => (⟨400, Body.error e⟩, w)
    | Except.ok post =>
      let r1 := now clock w
      let post1 := { post with UpdatedAt := r1.1 }
      let update : M :=
        [("title", Value.str post1.Title), ("content", Value.str post1.Content),
          ("updated_at", Value.time post1.UpdatedAt)]
      match FindOneAndUpdate env r1.2 [("_id", Value.oid id)] update with
      | (Except.error _, w2) => (⟨404, Body.error "Post not found"⟩, w2)
      | (Except.ok _, w2) => (⟨200, Body.post post1⟩, w2)

/-- The handler `deletePost` (DELETE /api/posts/:id). -/
def deletePost (env : Env) (idParam : String) (w : World) : Response × World :=
  match ObjectIDFromHex idParam with
  | none => (⟨400, Body.error "Invalid ID"⟩, w)
  | some id =>
    match DeleteOne env w [("_id", Value.oid id)] with
    | (Except.error e, w1) => (⟨500, Body.error e⟩, w1)
    | (Except.ok deletedCount, w1) =>
      if deletedCount = 0 then (⟨404, Body.error "Post not found"⟩, w1)
      else (⟨200, Body.message "Post deleted"⟩, w1)

/-! ## Sequences of requests -/

/-- One request to the API, with what the surroundings decide for it. -/
inductive Request
  | getPosts (env : Env)
  | getPost (env : Env) (idParam : String)
  | createPost (env : Env) (body : Except String Post)
  | updatePost (env : Env) (idParam : String) (body : Except String Post)
  | deletePost (env : Env) (idParam : String)

/-- Route one request to its handler. -/
def handle (clock : Nat → Time) (w : World) : Request → Response × World
  | Request.getPosts env => getPosts env w
  | Request.getPost env idParam => getPost env idParam w
  | Request.createPost env body => createPost clock env body w
  | Request.updatePost env idParam body => updatePost clock env idParam body w
  | Request.deletePost env idParam => deletePost env idParam w

/-- The world after a sequence of requests, served one after the other. -/
def run (clock : Nat → Time) (w : World) : List Request → World
  | [] => w
  | r :: rs => run clock (handle clock w r).2 rs

/-- The timestamp invariant of a world: every stored post was created no later than it
was last updated, and was last updated no later than the BSON date of the next reading
of the clock. -/
def TimeInv (clock : Nat → Time) (w : World) : Prop :=
  ∀ d ∈ w.store.docs, d.CreatedAt ≤ d.UpdatedAt ∧ d.UpdatedAt ≤ bsonDate (clock w.tick)

/-! ## Sample data -/

/-- A sample identifier, `0102030405060708090a0bff` in hexadecimal. -/
def sampleId : ObjectID := ⟨[1, 2, 3, 4, 5, 6, 7, 8, 9, 10, 11, 255], by decide⟩

/-- A second sample identifier, `aa0000000000000000000001` in hexadecimal. -/
def otherId : ObjectID := ⟨[170, 0, 0, 0, 0, 0, 0, 0, 0, 0, 0, 1], by decide⟩

/-- A clock whose first reading is 1999900 ns and that advances by 600000 ns between two
readings: the readings 1999900, 2599900, 3199900, ... fall in successive milliseconds. -/
def sampleClock : Nat → Time := fun n => 1999900 + 600000 * n

/-- Surroundings in which the store answers and the driver generates `sampleId`. -/
def calmEnv : Env := ⟨none, none, sampleId⟩

/-- Surroundings in which the round trip to the store fails. -/
def faultyEnv : Env := ⟨some "server selection error: context deadline exceeded", none, sampleId⟩

/-- The post `createPost` returns for `{title: "A", content: "B"}` at the first two
readings of `sampleClock`. -/
def createdPost : Post := ⟨sampleId, "A", "B", 1999900, 2599900⟩

/-- The post the collection holds after that creation. -/
def samplePost : Post := ⟨sampleId, "A", "B", 1000000, 2000000⟩

/-- The world after `{title: "A", content: "B"}` was created on the empty collection
under `sampleClock`: the collection holds `samplePost` only. -/
def sampleWorld : World :=
  ⟨⟨[samplePost], by decide⟩, 2,
    [StoreCall.insertOne ⟨NilObjectID, "A", "B", 1999900, 2599900⟩]⟩

/-- The update scenario of the specification: create `{title: "A", content: "B"}`, then
update the post to `{title: "C", content: "B"}`. -/
def sampleRequests : List Request :=
  [Request.createPost calmEnv (Except.ok ⟨NilObjectID, "A", "B", 0, 0⟩),
    Request.updatePost calmEnv "0102030405060708090a0bff" (Except.ok ⟨NilObjectID, "C", "B", 0, 0⟩)]

/-! ## Identifiers: decoding and encoding -/

theorem utf8Size_of_isHexChar {c : Char} (h : IsHexChar c) : c.utf8Size = 1 := by
  have hle : c.toNat ≤ 127 := by
    unfold IsHexChar at h; omega
  unfold Char.utf8Size
  have : c.val ≤ UInt32.ofNatCore 127 (by decide) := by
    show c.val.toNat ≤ 127
    exact hle
  simp only
  rw [if_pos this]

theorem fromHexChar_isSome_iff (c : Char) : (fromHexChar c).isSome = true ↔ IsHexChar c := by
  unfold fromHexChar IsHexChar
  simp only
  split_ifs with h1 h2 h3 <;> simp <;> omega

theorem hexDigit_isHexChar (n : Nat) : IsHexChar (hexDigit n) := by
  unfold hexDigit hextable
  rcases n with _ | _ | _ | _ | _ | _ | _ | _ | _ | _ | _ | _ | _ | _ | _ | _ | n
  all_goals first | decide | (simp [List.getD]; decide)

theorem fromHexChar_hexDigit (n : Fin 16) : fromHexChar (hexDigit n.val) = some n := by
  revert n; decide

theorem hexDecode_hexEncode (bs : List (Fin 256)) : hexDecode (hexEncode bs) = some bs := by
  induction bs with
  | nil => rfl
  | cons b bs ih =>
    have h1 := fromHexChar_hexDigit ⟨b.val / 16, by omega⟩
    have h2 := fromHexChar_hexDigit ⟨b.val % 16, by omega⟩
    simp only at h1 h2
    simp only [hexEncode, hexDecode, h1, h2, ih]
    congr 2
    apply Fin.ext
    simp only
    omega

theorem hexEncode_length (bs : List (Fin 256)) : (hexEncode bs).length = 2 * bs.length := by
  induction bs with
  | nil => rfl
  | cons b bs ih => simp only [hexEncode, List.length_cons, ih]; omega

theorem hexEncode_isHexChar (bs : List (Fin 256)) : ∀ c ∈ hexEncode bs, IsHexChar c := by
  induction bs with
  | nil => intro c hc; cases hc
  | cons b bs ih =>
    intro c hc
    simp only [hexEncode, List.mem_cons] at hc
    rcases hc with rfl | rfl | hc
    · exact hexDigit_isHexChar _
    · exact hexDigit_isHexChar _
    · exact ih c hc

theorem utf8Len_of_isHexChar (l : List Char) (h : ∀ c ∈ l, IsHexChar c) :
    String.utf8Len l = l.length := by
  induction l with
  | nil => rfl
  | cons c cs ih =>
    rw [String.utf8Len_cons, ih (fun d hd => h d (List.mem_cons_of_mem _ hd)),
      utf8Size_of_isHexChar (h c (List.mem_cons_self _ _)), List.length_cons]

theorem hexDecode_some : ∀ (n : Nat) (l : List Char) (bs : List (Fin 256)), l.length ≤ n →
    hexDecode l = some bs → (∀ c ∈ l, IsHexChar c) ∧ l.length = 2 * bs.length := by
  intro n
  induction n with
  | zero =>
    intro l bs hl h
    have : l = [] := List.length_eq_zero.mp (Nat.le_zero.mp hl)
    subst this
    simp only [hexDecode, Option.some.injEq] at h
    subst h
    exact ⟨fun c hc => (by cases hc), rfl⟩
  | succ n ih =>
    intro l bs hl h
    match l, hl, h with
    | [], _, h =>
      simp only [hexDecode, Option.some.injEq] at h
      subst h
      exact ⟨fun c hc => (by cases hc), rfl⟩
    | [_], _, h => simp [hexDecode] at h
    | p :: q :: rest, hl, h =>
      unfold hexDecode at h
      split at h
      · rename_i a b hp hq
        split at h
        · rename_i bs1 hrest
          simp only [Option.some.injEq] at h
          subst h
          have hlen : rest.length ≤ n := by
            simp only [List.length_cons] at hl; omega
          obtain ⟨hall, hl2⟩ := ih rest bs1 hlen hrest
          refine ⟨?_, by simp only [List.length_cons, hl2]; omega⟩
          intro c hc
          simp only [List.mem_cons] at hc
          rcases hc with rfl | rfl | hc
          · exact (fromHexChar_isSome_iff _).mp (by rw [hp]; rfl)
          · exact (fromHexChar_isSome_iff _).mp (by rw [hq]; rfl)
          · exact hall c hc
        · cases h
      · cases h

theorem hexDecode_isSome_of_isHexChar : ∀ (n : Nat) (l : List Char), l.length = 2 * n →
    (∀ c ∈ l, IsHexChar c) → ∃ bs, hexDecode l = some bs ∧ bs.length = n := by
  intro n
  induction n with
  | zero =>
    intro l hl _
    have : l = [] := List.length_eq_zero.mp (by omega)
    subst this
    exact ⟨[], rfl, rfl⟩
  | succ n ih =>
    intro l hl hall
    match l, hl, hall with
    | [], hl, _ => simp at hl
    | [_], hl, _ => simp only [List.length_cons, List.length_nil] at hl; omega
    | p :: q :: rest, hl, hall =>
      have hp := (fromHexChar_isSome_iff p).mpr (hall p (by simp))
      have hq := (fromHexChar_isSome_iff q).mpr (hall q (by simp))
      obtain ⟨a, ha⟩ := Option.isSome_iff_exists.mp hp
      obtain ⟨b, hb⟩ := Option.isSome_iff_exists.mp hq
      obtain ⟨bs, hbs, hlen⟩ := ih rest (by simp only [List.length_cons] at hl; omega)
        (fun c hc => hall c (by simp [hc]))
      refine ⟨⟨a.val * 16 + b.val, by omega⟩ :: bs, ?_, by simp [hlen]⟩
      simp only [hexDecode, ha, hb, hbs]

/-- The identifiers `ObjectIDFromHex` accepts are exactly the strings of 24 hexadecimal
characters. -/
theorem ObjectIDFromHex_isSome_iff (s : String) :
    (ObjectIDFromHex s).isSome = true ↔ ValidHexId s := by
  unfold ObjectIDFromHex ValidHexId
  constructor
  · intro h
    split_ifs at h with hsz
    · cases h
    · split at h
      · rename_i bs hbs
        obtain ⟨hall, hlen⟩ := hexDecode_some _ _ _ (le_refl _) hbs
        refine ⟨?_, hall⟩
        have := utf8Len_of_isHexChar s.data hall
        have h2 : s.utf8ByteSize = String.utf8Len s.data := rfl
        rw [String.length]
        omega
      · cases h
  · rintro ⟨hlen, hall⟩
    have h0 : s.utf8ByteSize = String.utf8Len s.data := rfl
    have h1 := utf8Len_of_isHexChar s.data hall
    have h2 : s.utf8ByteSize = 24 := by rw [h0, h1]; exact hlen
    obtain ⟨bs, hbs, hl⟩ := hexDecode_isSome_of_isHexChar 12 s.data (by rw [← String.length, hlen]) hall
    simp [h2, hbs, hl]

theorem ObjectIDFromHex_eq_none {s : String} (h : ¬ ValidHexId s) : ObjectIDFromHex s = none := by
  cases hs : ObjectIDFromHex s with
  | none => rfl
  | some o => exact absurd ((ObjectIDFromHex_isSome_iff s).mp (by rw [hs]; rfl)) h

theorem ObjectIDFromHex_Hex (o : ObjectID) : ObjectIDFromHex o.Hex = some o := by
  have h1 : o.Hex.utf8ByteSize = 24 := by
    show String.utf8Len (hexEncode o.bytes) = 24
    rw [utf8Len_of_isHexChar _ (hexEncode_isHexChar _), hexEncode_length, o.size_eq]
  unfold ObjectIDFromHex
  rw [if_neg (by simp [h1])]
  show (match hexDecode (hexEncode o.bytes) with
    | some bs => if h : bs.length = 12 then some ⟨bs, h⟩ else none
    | none => none) = some o
  rw [hexDecode_hexEncode]
  simp only [o.size_eq, dite_true]

/-! ## The collection: filters and updates -/

theorem matchesFilter_id (id : ObjectID) :
    matchesFilter (marshalM [("_id", Value.oid id)]) = fun d => decide (d.ID = id) := by
  funext d
  simp [marshalM, marshalValue, matchesFilter, fieldOf]

theorem marshalM_update (t c : String) (u : Time) :
    marshalM [("title", Value.str t), ("content", Value.str c), ("updated_at", Value.time u)]
      = [("title", Value.str t), ("content", Value.str c),
          ("updated_at", Value.time (bsonDate u))] := rfl

theorem bsonDate_le (t : Time) : bsonDate t ≤ t := Nat.div_mul_le_self t 1000000

theorem bsonDate_mono {a b : Time} (h : a ≤ b) : bsonDate a ≤ bsonDate b :=
  Nat.mul_le_mul_right 1000000 (Nat.div_le_div_right h)

theorem lt_bsonDate_add (t : Time) : t < bsonDate t + 1000000 :=
  Nat.lt_div_mul_add (by decide)

theorem applySet_update (t c : String) (u : Time) (d : Post) :
    applySet [("title", Value.str t), ("content", Value.str c), ("updated_at", Value.time u)] d
      = { d with Title := t, Content := c, UpdatedAt := u } := by
  simp [applySet, setField]

theorem updateFirst_eq_map (id : ObjectID) (f : Post → Post) :
    ∀ l : List Post, (l.map Post.ID).Nodup →
      updateFirst (fun d => decide (d.ID = id)) f l = l.map (fun d => if d.ID = id then f d else d)
  | [], _ => rfl
  | d :: ds, h => by
    rw [List.map_cons, List.nodup_cons] at h
    unfold updateFirst
    by_cases hd : d.ID = id
    · have hds : ∀ e ∈ ds, e.ID ≠ id := by
        intro e he heq
        exact h.1 (List.mem_map.mpr ⟨e, he, heq.trans hd.symm⟩)
      have hmap : ds.map (fun d => if d.ID = id then f d else d) = ds := by
        conv_rhs => rw [← List.map_id ds]
        apply List.map_congr_left
        intro e he
        simp [hds e he]
      simp [hd, hmap]
    · simp [hd, updateFirst_eq_map id f ds h.2]

theorem find?_eq_none_of_not_mem (id : ObjectID) (l : List Post) (h : id ∉ l.map Post.ID) :
    l.find? (fun d => decide (d.ID = id)) = none := by
  rw [List.find?_eq_none]
  intro d hd
  simp only [decide_eq_true_eq]
  intro heq
  exact h (List.mem_map.mpr ⟨d, hd, heq⟩)

theorem find?_eraseP_id (id : ObjectID) :
    ∀ l : List Post, (l.map Post.ID).Nodup →
      (l.eraseP (fun d => decide (d.ID = id))).find? (fun d => decide (d.ID = id)) = none
  | [], _ => rfl
  | d :: ds, h => by
    rw [List.map_cons, List.nodup_cons] at h
    by_cases hd : d.ID = id
    · rw [List.eraseP_cons_of_pos (by simpa using hd)]
      exact find?_eq_none_of_not_mem id ds (hd ▸ h.1)
    · rw [List.eraseP_cons_of_neg (by simpa using hd), List.find?_cons_of_neg _ (by simpa using hd)]
      exact find?_eraseP_id id ds h.2

/-- What `updatePost` does to the world, for a well-formed identifier and a decodable
body. -/
theorem updatePost_world (clock : Nat → Time) (env : Env) (idParam : String) (id : ObjectID)
    (post : Post) (w : World) (hid : ObjectIDFromHex idParam = some id) :
    (updatePost clock env idParam (Except.ok post) w).2 =
      { store :=
          if env.fault = none ∧ id ∈ w.store.docs.map Post.ID then
            w.store.update (marshalM [("_id", Value.oid id)])
              [("title", Value.str post.Title), ("content", Value.str post.Content),
                ("updated_at", Value.time (bsonDate (clock w.tick)))]
          else w.store
        tick := w.tick + 1
        calls := w.calls ++ [StoreCall.findOneAndUpdate [("_id", Value.oid id)]
          [("title", Value.str post.Title), ("content", Value.str post.Content),
            ("updated_at", Value.time (clock w.tick))]] } := by
  unfold updatePost
  simp only [hid, now, FindOneAndUpdate, marshalM_update]
  cases hf : env.fault with
  | some e => simp
  | none =>
    simp only [matchesFilter_id]
    by_cases hmem : id ∈ w.store.docs.map Post.ID
    · obtain ⟨d, hd, hdid⟩ := List.mem_map.mp hmem
      have : (w.store.docs.find? (fun d => decide (d.ID = id))).isSome := by
        rw [List.find?_isSome]
        exact ⟨d, hd, by simpa using hdid⟩
      obtain ⟨e, he⟩ := Option.isSome_iff_exists.mp this
      simp [he, hmem]
    · simp [find?_eq_none_of_not_mem id _ hmem, hmem]

theorem update_docs (s : Store) (id : ObjectID) (t c : String) (u : Time) :
    (s.update (marshalM [("_id", Value.oid id)])
        [("title", Value.str t), ("content", Value.str c), ("updated_at", Value.time u)]).docs
      = s.docs.map (fun d => if d.ID = id then { d with Title := t, Content := c, UpdatedAt := u } else d) := by
  show updateFirst _ _ s.docs = _
  rw [matchesFilter_id, updateFirst_eq_map id _ _ s.nodup]
  apply List.map_congr_left
  intro d _
  rw [applySet_update]

/-! ## Malformed identifiers -/

/-- C1: for an id path parameter that is not exactly 24 hexadecimal characters, `getPost`,
`updatePost` and `deletePost` each answer 400 with `{"error": "Invalid ID"}` and leave the
world as it was: the collection is unchanged and no call to it is logged, whatever the
request body is. -/
theorem invalid_id_is_400_without_store_access (clock : Nat → Time) (env : Env)
    (idParam : String) (body : Except String Post) (w : World) (h : ¬ ValidHexId idParam) :
    getPost env idParam w = (⟨400, Body.error "Invalid ID"⟩, w) ∧
    updatePost clock env idParam body w = (⟨400, Body.error "Invalid ID"⟩, w) ∧
    deletePost env idParam w = (⟨400, Body.error "Invalid ID"⟩, w) := by
  have hnone := ObjectIDFromHex_eq_none h
  refine ⟨?_, ?_, ?_⟩
  · unfold getPost; rw [hnone]
  · unfold updatePost; rw [hnone]
  · unfold deletePost; rw [hnone]

/-- C1, at the parameter `not-a-valid-id` of the specification's scenario and a body that
carries an identifier. -/
theorem invalid_id_is_400_without_store_access_witness :
    ¬ ValidHexId "not-a-valid-id" ∧
    getPost calmEnv "not-a-valid-id" sampleWorld
      = (⟨400, Body.error "Invalid ID"⟩, sampleWorld) ∧
    updatePost sampleClock calmEnv "not-a-valid-id" (Except.ok samplePost) sampleWorld
      = (⟨400, Body.error "Invalid ID"⟩, sampleWorld) ∧
    deletePost calmEnv "not-a-valid-id" sampleWorld
      = (⟨400, Body.error "Invalid ID"⟩, sampleWorld) :=
  ⟨by decide, invalid_id_is_400_without_store_access sampleClock calmEnv "not-a-valid-id"
    (Except.ok samplePost) sampleWorld (by decide)⟩

/-! ## Updates -/

/-- C2: for a well-formed id and a decodable body, the one call `updatePost` issues is a
`FindOneAndUpdate` on `_id = id` whose `$set` names `title`, `content` and `updated_at`
only; document by document, `_id` and `created_at` are kept, a document with another
`_id` is unchanged, and the document with that `_id` gets the body's title and content
and the BSON date of the clock reading as `updated_at` (it is unchanged when the round
trip fails), whatever `id` and `created_at` the body carries. -/
theorem updatePost_sets_title_content_updated_at_only (clock : Nat → Time) (env : Env)
    (idParam : String) (id : ObjectID) (post : Post) (w : World)
    (hid : ObjectIDFromHex idParam = some id) :
    (updatePost clock env idParam (Except.ok post) w).2.calls =
      w.calls ++ [StoreCall.findOneAndUpdate [("_id", Value.oid id)]
        [("title", Value.str post.Title), ("content", Value.str post.Content),
          ("updated_at", Value.time (clock w.tick))]] ∧
    List.Forall₂
      (fun d d1 => d1.ID = d.ID ∧ d1.CreatedAt = d.CreatedAt ∧ (d.ID ≠ id → d1 = d) ∧
        (d.ID = id → env.fault = none →
          d1 = { d with Title := post.Title, Content := post.Content,
                        UpdatedAt := bsonDate (clock w.tick) }) ∧
        (env.fault ≠ none → d1 = d))
      w.store.docs (updatePost clock env idParam (Except.ok post) w).2.store.docs := by
  rw [updatePost_world clock env idParam id post w hid]
  refine ⟨rfl, ?_⟩
  simp only
  split_ifs with hc
  · rw [update_docs]
    rw [List.forall₂_map_right_iff, List.forall₂_same]
    intro d _
    by_cases hd : d.ID = id
    · simp [hd, hc.1]
    · simp [hd]
  · rw [List.forall₂_same]
    intro d hd
    refine ⟨rfl, rfl, fun _ => rfl, ?_, fun _ => rfl⟩
    intro hdid hf
    exact absurd ⟨hf, List.mem_map.mpr ⟨d, hd, hdid⟩⟩ hc

/-- C2, at `sampleWorld` and a body that carries another identifier and a creation time:
the stored post keeps `sampleId` and its `created_at` of 1000000. -/
theorem updatePost_sets_title_content_updated_at_only_witness :
    ObjectIDFromHex "0102030405060708090a0bff" = some sampleId ∧
    (updatePost sampleClock calmEnv "0102030405060708090a0bff"
        (Except.ok ⟨otherId, "C", "B", 7, 9⟩) sampleWorld).2.store.docs
      = [⟨sampleId, "C", "B", 1000000, 3000000⟩] := by
  refine ⟨by decide, ?_⟩
  have h := (updatePost_sets_title_content_updated_at_only sampleClock calmEnv
    "0102030405060708090a0bff" sampleId ⟨otherId, "C", "B", 7, 9⟩ sampleWorld (by decide)).2
  generalize (updatePost sampleClock calmEnv "0102030405060708090a0bff"
        (Except.ok ⟨otherId, "C", "B", 7, 9⟩) sampleWorld).2.store.docs = l at h
  cases h with
  | cons h1 h2 =>
    cases h2
    rw [h1.2.2.2.1 rfl rfl]
    rfl

/-! ## Creation and deletion -/

/-- What a 201 of `createPost` means: the store answered, the identifier was not in the
collection, and the returned post went in last, marshalled. -/
theorem createPost_201 {clock : Nat → Time} {env : Env} {post : Post} {w w1 : World} {p : Post}
    (h : createPost clock env (Except.ok post) w = (⟨201, Body.post p⟩, w1)) :
    p = { post with ID := if post.ID.IsZero then env.fresh else post.ID,
                    CreatedAt := clock w.tick, UpdatedAt := clock (w.tick + 1) } ∧
    p.ID ∉ w.store.docs.map Post.ID ∧ w1.store.docs = w.store.docs ++ [marshalPost p] ∧
    w1.tick = w.tick + 2 := by
  unfold createPost at h
  simp only [now, InsertOne] at h
  cases hf : env.fault with
  | some e => simp [hf] at h
  | none =>
    simp only [hf, Store.insert] at h
    split_ifs at h with hz hmem hmem
    all_goals simp only [Prod.mk.injEq, Response.mk.injEq, Body.post.injEq] at h
    all_goals first
      | (exact absurd h.1.1 (by decide))
      | (obtain ⟨⟨_, hp⟩, hw⟩ := h
         subst hp; subst hw
         refine ⟨?_, ?_, rfl, rfl⟩
         · simp [hz]
         · simpa [hz] using hmem)

/-- C5 (as stated, refuted): `createPost` of `{title: "A", content: "B"}` on the empty
collection under `sampleClock` answers 201 with `created_at` 1999900 and `updated_at`
2599900, and `getPost` of the returned id then answers 200 with `created_at` 1000000 and
`updated_at` 2000000: the timestamps read back are not those of the 201. -/
theorem getPost_after_createPost_has_other_timestamps :
    createPost sampleClock calmEnv (Except.ok ⟨NilObjectID, "A", "B", 0, 0⟩) World.init
      = (⟨201, Body.post createdPost⟩, sampleWorld) ∧
    (getPost calmEnv createdPost.ID.Hex sampleWorld).1
      = ⟨200, Body.post ⟨sampleId, "A", "B", 1000000, 2000000⟩⟩ ∧
    (getPost calmEnv createdPost.ID.Hex sampleWorld).1 ≠ ⟨200, Body.post createdPost⟩ ∧
    createdPost.CreatedAt ≠ 1000000 ∧ createdPost.UpdatedAt ≠ 2000000 := by
  decide

/-- C5 (amended): when `createPost` answers 201 with a post `p` for a body with title `t`
and content `c`, a `getPost` of `p.id` on the resulting world, with the store answering,
responds 200 with a post that has the id, title and content of `p` and, as `created_at`
and `updated_at`, those of `p` without what is below the millisecond; `p` has title `t`
and content `c`. -/
theorem createPost_then_getPost (clock : Nat → Time) (env env2 : Env) (post p : Post)
    (w w1 : World)
    (hcreate : createPost clock env (Except.ok post) w = (⟨201, Body.post p⟩, w1))
    (hstore : env2.fault = none) :
    (getPost env2 p.ID.Hex w1).1
      = ⟨200, Body.post ⟨p.ID, p.Title, p.Content, bsonDate p.CreatedAt, bsonDate p.UpdatedAt⟩⟩ ∧
    p.Title = post.Title ∧ p.Content = post.Content ∧
    bsonDate p.CreatedAt ≤ p.CreatedAt ∧ p.CreatedAt < bsonDate p.CreatedAt + 1000000 ∧
    bsonDate p.UpdatedAt ≤ p.UpdatedAt ∧ p.UpdatedAt < bsonDate p.UpdatedAt + 1000000 := by
  obtain ⟨hp, hfresh, hdocs, _⟩ := createPost_201 hcreate
  refine ⟨?_, by rw [hp], by rw [hp], bsonDate_le _, lt_bsonDate_add _, bsonDate_le _,
    lt_bsonDate_add _⟩
  unfold getPost
  simp only [ObjectIDFromHex_Hex, FindOne, hstore, matchesFilter_id, hdocs, List.find?_append,
    find?_eq_none_of_not_mem p.ID _ hfresh]
  simp [marshalPost]

/-- C5 (amended), at the scenario of the specification: create `{title: "A", content: "B"}`
on the empty collection, then read the post back. -/
theorem createPost_then_getPost_witness :
    createPost sampleClock calmEnv (Except.ok ⟨NilObjectID, "A", "B", 0, 0⟩) World.init
      = (⟨201, Body.post createdPost⟩, sampleWorld) ∧
    calmEnv.fault = none ∧
    (getPost calmEnv createdPost.ID.Hex sampleWorld).1
      = ⟨200, Body.post ⟨createdPost.ID, createdPost.Title, createdPost.Content,
          bsonDate createdPost.CreatedAt, bsonDate createdPost.UpdatedAt⟩⟩ :=
  ⟨by decide, rfl, (createPost_then_getPost sampleClock calmEnv calmEnv
    ⟨NilObjectID, "A", "B", 0, 0⟩ createdPost World.init sampleWorld (by decide) rfl).1⟩

/-- What a 200 of `deletePost` means: the identifier is well formed and the collection
lost its first (and only) document with that identifier. -/
theorem deletePost_200 {env : Env} {idParam : String} {w w1 : World}
    (h : deletePost env idParam w = (⟨200, Body.message "Post deleted"⟩, w1)) :
    ∃ id, ObjectIDFromHex idParam = some id ∧
      w1.store.docs = w.store.docs.eraseP (fun d => decide (d.ID = id)) := by
  unfold deletePost at h
  cases hid : ObjectIDFromHex idParam with
  | none => simp [hid] at h
  | some id =>
    refine ⟨id, rfl, ?_⟩
    simp only [hid, DeleteOne, matchesFilter_id] at h
    cases hf : env.fault with
    | some e => simp [hf] at h
    | none =>
      simp only [hf] at h
      cases hfind : w.store.docs.find? (fun d => decide (d.ID = id)) with
      | none => simp [hfind] at h
      | some d =>
        simp only [hfind] at h
        rw [if_neg (by decide)] at h
        rw [← (Prod.mk.inj h).2]
        show List.eraseP (matchesFilter _) _ = _
        rw [matchesFilter_id]

/-- C6: when `deletePost` of an id answers 200 with `{"message": "Post deleted"}`, no
document with that id remains; on the resulting world `getPost` of the id answers 404,
and a second `deletePost`, with the store answering, answers 404. -/
theorem deletePost_then_not_found (env env2 env3 : Env) (idParam : String) (w w1 : World)
    (hdel : deletePost env idParam w = (⟨200, Body.message "Post deleted"⟩, w1))
    (hstore : env3.fault = none) :
    (∀ id, ObjectIDFromHex idParam = some id → id ∉ w1.store.docs.map Post.ID) ∧
    (getPost env2 idParam w1).1 = ⟨404, Body.error "Post not found"⟩ ∧
    (deletePost env3 idParam w1).1 = ⟨404, Body.error "Post not found"⟩ := by
  obtain ⟨id, hid, hdocs⟩ := deletePost_200 hdel
  have hfind : w1.store.docs.find? (fun d => decide (d.ID = id)) = none := by
    rw [hdocs]; exact find?_eraseP_id id _ w.store.nodup
  refine ⟨?_, ?_, ?_⟩
  · intro id2 hid2 hmem
    have : id2 = id := Option.some.inj (hid2.symm.trans hid)
    subst this
    obtain ⟨d, hd, hdid⟩ := List.mem_map.mp hmem
    rw [List.find?_eq_none] at hfind
    exact hfind d hd (by simpa using hdid)
  · unfold getPost
    simp only [hid, FindOne, matchesFilter_id, hfind]
    cases env2.fault <;> rfl
  · unfold deletePost
    simp only [hid, DeleteOne, matchesFilter_id, hfind, hstore]
    rfl

/-- C6, at the scenario of the specification: delete the stored post, read it, delete it
again. -/
theorem deletePost_then_not_found_witness :
    deletePost calmEnv "0102030405060708090a0bff" sampleWorld
      = (⟨200, Body.message "Post deleted"⟩,
          ⟨Store.empty, 2, [StoreCall.insertOne ⟨NilObjectID, "A", "B", 1999900, 2599900⟩,
            StoreCall.deleteOne [("_id", Value.oid sampleId)]]⟩) ∧
    calmEnv.fault = none ∧
    (getPost calmEnv "0102030405060708090a0bff"
        ⟨Store.empty, 2, [StoreCall.insertOne ⟨NilObjectID, "A", "B", 1999900, 2599900⟩,
          StoreCall.deleteOne [("_id", Value.oid sampleId)]]⟩).1
      = ⟨404, Body.error "Post not found"⟩ ∧
    (deletePost calmEnv "0102030405060708090a0bff"
        ⟨Store.empty, 2, [StoreCall.insertOne ⟨NilObjectID, "A", "B", 1999900, 2599900⟩,
          StoreCall.deleteOne [("_id", Value.oid sampleId)]]⟩).1
      = ⟨404, Body.error "Post not found"⟩ :=
  ⟨by decide, rfl, (deletePost_then_not_found calmEnv calmEnv calmEnv
    "0102030405060708090a0bff" sampleWorld _ (by decide) rfl).2⟩

/-! ## Timestamps along a run -/

theorem getPosts_world (env : Env) (w : World) :
    (getPosts env w).2.store = w.store ∧ (getPosts env w).2.tick = w.tick := by
  unfold getPosts Find cursorAll
  cases env.fault <;> cases env.cursorFault
  all_goals first
    | exact ⟨rfl, rfl⟩
    | (dsimp only; split <;> exact ⟨rfl, rfl⟩)

theorem getPost_world (env : Env) (idParam : String) (w : World) :
    (getPost env idParam w).2.store = w.store ∧ (getPost env idParam w).2.tick = w.tick := by
  unfold getPost FindOne
  cases ObjectIDFromHex idParam with
  | none => exact ⟨rfl, rfl⟩
  | some id =>
    cases env.fault with
    | some e => exact ⟨rfl, rfl⟩
    | none =>
      simp only
      cases w.store.docs.find? (matchesFilter (marshalM [("_id", Value.oid id)])) <;> exact ⟨rfl, rfl⟩

theorem deletePost_world (env : Env) (idParam : String) (w : World) :
    (deletePost env idParam w).2.tick = w.tick ∧
    ∀ d ∈ (deletePost env idParam w).2.store.docs, d ∈ w.store.docs := by
  unfold deletePost DeleteOne
  cases ObjectIDFromHex idParam with
  | none => exact ⟨rfl, fun _ h => h⟩
  | some id =>
    cases env.fault with
    | some e => exact ⟨rfl, fun _ h => h⟩
    | none =>
      simp only
      cases w.store.docs.find? (matchesFilter (marshalM [("_id", Value.oid id)])) with
      | none => exact ⟨rfl, fun _ h => h⟩
      | some d =>
        simp only
        rw [if_neg (by decide)]
        exact ⟨rfl, fun _ h => List.mem_of_mem_eraseP h⟩

theorem createPost_world (clock : Nat → Time) (env : Env) (body : Except String Post)
    (w : World) :
    ((createPost clock env body w).2.tick = w.tick ∨
      (createPost clock env body w).2.tick = w.tick + 2) ∧
    ∀ d ∈ (createPost clock env body w).2.store.docs, d ∈ w.store.docs ∨
      (d.CreatedAt = bsonDate (clock w.tick) ∧ d.UpdatedAt = bsonDate (clock (w.tick + 1)) ∧
        (createPost clock env body w).2.tick = w.tick + 2) := by
  unfold createPost
  cases body with
  | error e => exact ⟨Or.inl rfl, fun _ h => Or.inl h⟩
  | ok post =>
    simp only [now, InsertOne]
    cases env.fault with
    | some e => exact ⟨Or.inr rfl, fun _ h => Or.inl h⟩
    | none =>
      simp only [Store.insert]
      split_ifs with hz hmem hmem
      all_goals dsimp only
      all_goals refine ⟨Or.inr rfl, ?_⟩
      all_goals intro d hd
      all_goals first
        | exact Or.inl hd
        | (rcases List.mem_append.mp hd with h | h
           · exact Or.inl h
           · rw [List.mem_singleton] at h
             subst h
             exact Or.inr ⟨rfl, rfl, rfl⟩)

theorem updatePost_world_docs (clock : Nat → Time) (env : Env) (idParam : String)
    (body : Except String Post) (w : World) :
    ((updatePost clock env idParam body w).2.tick = w.tick ∨
      (updatePost clock env idParam body w).2.tick = w.tick + 1) ∧
    ∀ d1 ∈ (updatePost clock env idParam body w).2.store.docs, ∃ d ∈ w.store.docs,
      d1.ID = d.ID ∧ d1.CreatedAt = d.CreatedAt ∧
        (d1 = d ∨ (d1.UpdatedAt = bsonDate (clock w.tick) ∧
          (updatePost clock env idParam body w).2.tick = w.tick + 1)) := by
  cases hid : ObjectIDFromHex idParam with
  | none =>
    unfold updatePost
    rw [hid]
    exact ⟨Or.inl rfl, fun d hd => ⟨d, hd, rfl, rfl, Or.inl rfl⟩⟩
  | some id =>
    cases body with
    | error e =>
      unfold updatePost
      rw [hid]
      exact ⟨Or.inl rfl, fun d hd => ⟨d, hd, rfl, rfl, Or.inl rfl⟩⟩
    | ok post =>
      rw [updatePost_world clock env idParam id post w hid]
      refine ⟨Or.inr rfl, ?_⟩
      simp only
      split_ifs with hc
      · rw [update_docs]
        intro d1 hd1
        obtain ⟨d, hd, rfl⟩ := List.mem_map.mp hd1
        refine ⟨d, hd, ?_⟩
        by_cases hdid : d.ID = id
        · simp [hdid]
        · simp [hdid]
      · exact fun d hd => ⟨d, hd, rfl, rfl, Or.inl rfl⟩

theorem timeInv_handle (clock : Nat → Time) (hclock : Monotone clock) (w : World)
    (r : Request) (hw : TimeInv clock w) : TimeInv clock (handle clock w r).2 := by
  cases r with
  | getPosts env =>
    obtain ⟨hs, ht⟩ := getPosts_world env w
    intro d hd
    show _ ∧ _ ≤ bsonDate (clock (getPosts env w).2.tick)
    rw [ht]
    exact hw d (by have : d ∈ (getPosts env w).2.store.docs := hd
                   rwa [hs] at this)
  | getPost env idParam =>
    obtain ⟨hs, ht⟩ := getPost_world env idParam w
    intro d hd
    show _ ∧ _ ≤ bsonDate (clock (getPost env idParam w).2.tick)
    rw [ht]
    exact hw d (by have : d ∈ (getPost env idParam w).2.store.docs := hd
                   rwa [hs] at this)
  | deletePost env idParam =>
    obtain ⟨ht, hs⟩ := deletePost_world env idParam w
    intro d hd
    show _ ∧ _ ≤ bsonDate (clock (deletePost env idParam w).2.tick)
    rw [ht]
    exact hw d (hs d hd)
  | createPost env body =>
    obtain ⟨ht, hs⟩ := createPost_world clock env body w
    intro d hd
    show _ ∧ _ ≤ bsonDate (clock (createPost clock env body w).2.tick)
    have hmono : bsonDate (clock w.tick)
        ≤ bsonDate (clock (createPost clock env body w).2.tick) := by
      rcases ht with h | h <;> rw [h]
      exact bsonDate_mono (hclock (Nat.le_add_right _ _))
    rcases hs d hd with h | ⟨hc, hu, htick⟩
    · exact ⟨(hw d h).1, le_trans (hw d h).2 hmono⟩
    · rw [hc, hu, htick]
      exact ⟨bsonDate_mono (hclock (Nat.le_succ _)), bsonDate_mono (hclock (Nat.le_succ _))⟩
  | updatePost env idParam body =>
    obtain ⟨ht, hs⟩ := updatePost_world_docs clock env idParam body w
    intro d1 hd1
    show _ ∧ _ ≤ bsonDate (clock (updatePost clock env idParam body w).2.tick)
    have hmono : bsonDate (clock w.tick)
        ≤ bsonDate (clock (updatePost clock env idParam body w).2.tick) := by
      rcases ht with h | h <;> rw [h]
      exact bsonDate_mono (hclock (Nat.le_succ _))
    obtain ⟨d, hd, _, hcr, h | ⟨hu, htick⟩⟩ := hs d1 hd1
    · subst h
      exact ⟨(hw d1 hd).1, le_trans (hw d1 hd).2 hmono⟩
    · rw [hcr, hu, htick]
      exact ⟨le_trans (hw d hd).1 (hw d hd).2, bsonDate_mono (hclock (Nat.le_succ _))⟩

theorem timeInv_run (clock : Nat → Time) (hclock : Monotone clock) (reqs : List Request) :
    ∀ w : World, TimeInv clock w → TimeInv clock (run clock w reqs) := by
  induction reqs with
  | nil => exact fun w hw => hw
  | cons r rs ih => exact fun w hw => ih _ (timeInv_handle clock hclock w r hw)

/-- C10: with non-decreasing clock readings, after every sequence of requests from the
empty collection every stored post has `created_at ≤ updated_at`, and an `updatePost`
served next leaves no document with a lower `updated_at` than the document of the same
`_id` had before. -/
theorem created_at_le_updated_at_along_runs (clock : Nat → Time) (hclock : Monotone clock)
    (reqs : List Request) :
    (∀ d ∈ (run clock World.init reqs).store.docs, d.CreatedAt ≤ d.UpdatedAt) ∧
    (∀ (env : Env) (idParam : String) (body : Except String Post),
      ∀ d ∈ (run clock World.init reqs).store.docs,
        ∀ d1 ∈ (updatePost clock env idParam body (run clock World.init reqs)).2.store.docs,
          d1.ID = d.ID → d.UpdatedAt ≤ d1.UpdatedAt) := by
  have hinv : TimeInv clock (run clock World.init reqs) :=
    timeInv_run clock hclock reqs World.init (fun d hd => by cases hd)
  refine ⟨fun d hd => (hinv d hd).1, ?_⟩
  intro env idParam body d hd d1 hd1 hid
  obtain ⟨e, he, hide, _, h | ⟨hu, _⟩⟩ :=
    (updatePost_world_docs clock env idParam body _).2 d1 hd1
  · subst h
    have : d1 = d :=
      List.inj_on_of_nodup_map (run clock World.init reqs).store.nodup he hd hid
    rw [this]
  · rw [hu]
    exact (hinv d hd).2

/-- C10, at the update scenario of the specification under `sampleClock`: the collection
holds the post with `created_at` 1000000 and `updated_at` 3000000. -/
theorem created_at_le_updated_at_along_runs_witness :
    Monotone sampleClock ∧
    (run sampleClock World.init sampleRequests).store.docs
      = [⟨sampleId, "C", "B", 1000000, 3000000⟩] ∧
    (∀ d ∈ (run sampleClock World.init sampleRequests).store.docs, d.CreatedAt ≤ d.UpdatedAt) :=
  ⟨fun _ _ h => Nat.add_le_add_left (Nat.mul_le_mul_left 600000 h) 1999900, by decide,
    (created_at_le_updated_at_along_runs sampleClock
      (fun _ _ h => Nat.add_le_add_left (Nat.mul_le_mul_left 600000 h) 1999900)
      sampleRequests).1⟩

/-! ## Where the handlers leave the specification -/

/-- C3 (code defect): `createPost` reads the clock once for `created_at` and once more for
`updated_at`. Under `sampleClock`, creating `{title: "A", content: "B"}` on the empty
collection answers 201 with `created_at` 1999900 and `updated_at` 2599900, and stores a
post with `created_at` 1000000 and `updated_at` 2000000: the two differ in the response
and in the collection. -/
theorem createPost_reads_the_clock_twice :
    (createPost sampleClock calmEnv (Except.ok ⟨NilObjectID, "A", "B", 0, 0⟩) World.init).1
      = ⟨201, Body.post ⟨sampleId, "A", "B", 1999900, 2599900⟩⟩ ∧
    (createPost sampleClock calmEnv
        (Except.ok ⟨NilObjectID, "A", "B", 0, 0⟩) World.init).2.store.docs
      = [⟨sampleId, "A", "B", 1000000, 2000000⟩] ∧
    (⟨sampleId, "A", "B", 1999900, 2599900⟩ : Post).CreatedAt ≠
      (⟨sampleId, "A", "B", 1999900, 2599900⟩ : Post).UpdatedAt ∧
    (⟨sampleId, "A", "B", 1000000, 2000000⟩ : Post).CreatedAt ≠
      (⟨sampleId, "A", "B", 1000000, 2000000⟩ : Post).UpdatedAt := by
  decide

/-- C4 (code defect): `createPost` overwrites the timestamps of the decoded body and not
its id. Two bodies with the same title and content, one without id and one with the id
`aa0000000000000000000001`, make it hand different documents to `InsertOne`, and the
posts are persisted under different identifiers: the generated one and the client's. -/
theorem createPost_keeps_client_id :
    (⟨NilObjectID, "A", "B", 0, 0⟩ : Post).Title = (⟨otherId, "A", "B", 0, 0⟩ : Post).Title ∧
    (⟨NilObjectID, "A", "B", 0, 0⟩ : Post).Content = (⟨otherId, "A", "B", 0, 0⟩ : Post).Content ∧
    (createPost sampleClock calmEnv (Except.ok ⟨NilObjectID, "A", "B", 0, 0⟩) World.init).2.calls
      = [StoreCall.insertOne ⟨NilObjectID, "A", "B", 1999900, 2599900⟩] ∧
    (createPost sampleClock calmEnv (Except.ok ⟨otherId, "A", "B", 0, 0⟩) World.init).2.calls
      = [StoreCall.insertOne ⟨otherId, "A", "B", 1999900, 2599900⟩] ∧
    (createPost sampleClock calmEnv (Except.ok ⟨NilObjectID, "A", "B", 0, 0⟩) World.init).2.calls
      ≠ (createPost sampleClock calmEnv (Except.ok ⟨otherId, "A", "B", 0, 0⟩) World.init).2.calls ∧
    (createPost sampleClock calmEnv
        (Except.ok ⟨NilObjectID, "A", "B", 0, 0⟩) World.init).2.store.docs.map Post.ID
      = [sampleId] ∧
    (createPost sampleClock calmEnv
        (Except.ok ⟨otherId, "A", "B", 0, 0⟩) World.init).2.store.docs.map Post.ID
      = [otherId] ∧
    (createPost sampleClock calmEnv (Except.ok ⟨otherId, "A", "B", 0, 0⟩) World.init).1
      = ⟨201, Body.post ⟨otherId, "A", "B", 1999900, 2599900⟩⟩ := by
  decide

/-- C7 (code defect): with `samplePost` stored and the round trip to the store failing,
`getPost` and `updatePost` of its id answer 404 "Post not found", where `getPosts`,
`createPost` and `deletePost` answer 500 with the error of the store. -/
theorem store_failure_is_404_in_getPost_and_updatePost :
    samplePost ∈ sampleWorld.store.docs ∧
    (getPost faultyEnv "0102030405060708090a0bff" sampleWorld).1
      = ⟨404, Body.error "Post not found"⟩ ∧
    (updatePost sampleClock faultyEnv "0102030405060708090a0bff"
        (Except.ok ⟨NilObjectID, "C", "B", 0, 0⟩) sampleWorld).1
      = ⟨404, Body.error "Post not found"⟩ ∧
    (getPosts faultyEnv sampleWorld).1
      = ⟨500, Body.error "server selection error: context deadline exceeded"⟩ ∧
    (createPost sampleClock faultyEnv (Except.ok ⟨NilObjectID, "C", "B", 0, 0⟩) sampleWorld).1
      = ⟨500, Body.error "server selection error: context deadline exceeded"⟩ ∧
    (deletePost faultyEnv "0102030405060708090a0bff" sampleWorld).1
      = ⟨500, Body.error "server selection error: context deadline exceeded"⟩ := by
  decide

/-- C8 (code defect): on the empty collection, with the store answering, `getPosts`
answers 200 and its body is the JSON `null` of the nil slice `var posts []Post`, not the
empty array. -/
theorem getPosts_on_empty_store_is_null :
    getPosts calmEnv World.init = (⟨200, Body.null⟩, ⟨Store.empty, 0, [StoreCall.find []]⟩) ∧
    (getPosts calmEnv World.init).1.body ≠ Body.posts [] := by
  decide

/-- C9 (code defect): `updatePost` answers with the post it decoded from the body, not
with the document the store returns. Updating `samplePost` with
`{title: "C", content: "B"}` answers 200 with the zero id and the zero `created_at`,
while the stored post keeps `sampleId` and its `created_at` of 1000000. -/
theorem updatePost_echoes_the_body :
    (updatePost sampleClock calmEnv "0102030405060708090a0bff"
        (Except.ok ⟨NilObjectID, "C", "B", 0, 0⟩) sampleWorld).1
      = ⟨200, Body.post ⟨NilObjectID, "C", "B", 0, 3199900⟩⟩ ∧
    (updatePost sampleClock calmEnv "0102030405060708090a0bff"
        (Except.ok ⟨NilObjectID, "C", "B", 0, 0⟩) sampleWorld).2.store.docs
      = [⟨sampleId, "C", "B", 1000000, 3000000⟩] ∧
    NilObjectID.IsZero = true ∧ sampleId.IsZero = false := by
  decide

end GoBlog
